import Mathlib

/-!
Shallow embedding of `src/amd/vulkan/radv_nir_lower_ycbcr_textures.c`
(mesa-20.0.0), the NIR lowering pass that rewrites YCbCr texture samples
into per-plane samples plus range expansion and color-matrix arithmetic.

Emitted IR float arithmetic is modelled exactly over `ℚ`; the instruction
stream and the SSA use/def bookkeeping are modelled by explicit state
passing.  Definitions keep the C source's names.
-/

namespace RadvYcbcr

/-! ## Enumerations of the Vulkan descriptor (data model) -/

/-- VkSamplerYcbcrRange: the two range values the pass handles. -/
inductive VkSamplerYcbcrRange
  | ituFull
  | ituNarrow
deriving DecidableEq, Repr

/-- VkSamplerYcbcrModelConversion: the five color models. -/
inductive VkSamplerYcbcrModelConversion
  | rgbIdentity
  | ycbcrIdentity
  | bt601
  | bt709
  | bt2020
deriving DecidableEq, Repr

/-- VkChromaLocation. -/
inductive VkChromaLocation
  | cositedEven
  | midpoint
deriving DecidableEq, Repr

/-- VkComponentSwizzle values appearing in a `VkComponentMapping`. -/
inductive VkComponentSwizzle
  | identity
  | zero
  | one
  | r
  | g
  | b
  | a
deriving DecidableEq, Repr

/-- The driver-internal `enum vk_swizzle` values used by
`build_swizzled_components` (X, Y, Z, W, 0, 1). -/
inductive VkSwizzle
  | x
  | y
  | z
  | w
  | zero
  | one
deriving DecidableEq, Repr

/-- VkComponentMapping: one `VkComponentSwizzle` per output channel. -/
structure VkComponentMapping where
  r : VkComponentSwizzle
  g : VkComponentSwizzle
  b : VkComponentSwizzle
  a : VkComponentSwizzle
deriving DecidableEq, Repr

/-- Per-format metadata delivered by the external format provider
(`vk_format_description`, `vk_format_get_plane_count`,
`vk_format_get_component_bits`): plane count, subsampling divisors and
the bit depth of plane 0's first (X) component. -/
structure FormatInfo where
  plane_count : ℕ
  width_divisor : ℕ
  height_divisor : ℕ
  plane0_bits : ℤ
deriving DecidableEq, Repr

/-- `struct radv_sampler_ycbcr_conversion`, restricted to the fields the
pass reads.  `format = none` models the `VK_FORMAT_UNDEFINED` sentinel;
`format = some desc` bundles the format with its external metadata. -/
structure YcbcrConversion where
  format : Option FormatInfo
  ycbcr_model : VkSamplerYcbcrModelConversion
  ycbcr_range : VkSamplerYcbcrRange
  chroma_offsets : VkChromaLocation × VkChromaLocation
  components : VkComponentMapping
deriving DecidableEq, Repr

/-- `conversion->chroma_offsets[c]` for `c < 2` (the only indices the C
reads, guarded by `c < ARRAY_SIZE(divisors)`). -/
def chromaAt (conv : YcbcrConversion) (c : ℕ) : VkChromaLocation :=
  if c = 0 then conv.chroma_offsets.1 else conv.chroma_offsets.2

/-- `divisors[2] = {fmt_desc->width_divisor, fmt_desc->height_divisor}`
from `implicit_downsampled_coords`; index 2 and up is never read. -/
def divisorAt (desc : FormatInfo) (c : ℕ) : ℕ :=
  if c = 0 then desc.width_divisor else if c = 1 then desc.height_divisor else 0

/-! ## Range expansion (`y_range`, `chroma_range`, lines 38-81) -/

/-- `y_range`: luma range expansion.  `nir_frcp` is modelled by `⁻¹` on ℚ
and `pow(2, bpc)` by an exact integer power of 2. -/
def y_range (y_channel : ℚ) (bpc : ℤ) (range : VkSamplerYcbcrRange) : ℚ :=
  match range with
  | .ituFull => y_channel
  | .ituNarrow =>
      (y_channel * ((2 : ℚ) ^ bpc - 1) + (-16 * (2 : ℚ) ^ (bpc - 8))) *
        (219 * (2 : ℚ) ^ (bpc - 8))⁻¹

/-- `chroma_range`: chroma range expansion. -/
def chroma_range (chroma_channel : ℚ) (bpc : ℤ) (range : VkSamplerYcbcrRange) : ℚ :=
  match range with
  | .ituFull =>
      chroma_channel + (-(2 : ℚ) ^ (bpc - 1) / ((2 : ℚ) ^ bpc - 1))
  | .ituNarrow =>
      (chroma_channel * ((2 : ℚ) ^ bpc - 1) + (-128 * (2 : ℚ) ^ (bpc - 8))) *
        (224 * (2 : ℚ) ^ (bpc - 8))⁻¹

/-! ## Color matrices (`ycbcr_model_to_rgb_matrix`, lines 87-122) -/

/-- `ycbcr_model_to_rgb_matrix`: the three literal 3x4 matrices of the C
source, rows indexed by `Fin 3`.  The `default: unreachable` branch is
modelled by `none` (the function is only ever called for the three ITU
models). -/
def ycbcr_model_to_rgb_matrix (model : VkSamplerYcbcrModelConversion) :
    Option (Fin 3 → Fin 4 → ℚ) :=
  match model with
  | .bt601 => some
      ![![1.402, 1, 0, 0],
        ![-0.714136286201022, 1, -0.344136286201022, 0],
        ![0, 1, 1.772, 0]]
  | .bt709 => some
      ![![1.5748031496063, 1, 0, 0],
        ![-0.468125209181067, 1, -0.187327487470334, 0],
        ![0, 1, 1.85563184264242, 0]]
  | .bt2020 => some
      ![![1.4746, 1, 0, 0],
        ![-0.571353126843658, 1, -0.164553126843658, 0],
        ![0, 1, 1.8814, 0]]
  | _ => none

/-- `nir_fdot4`: dot product of two 4-component vectors. -/
def fdot4 (u v : Fin 4 → ℚ) : ℚ :=
  u 0 * v 0 + u 1 * v 1 + u 2 * v 2 + u 3 * v 3

/-- The `expanded_channels` vector built inside `convert_ycbcr`
(lines 132-140): channels 0 and 2 of the combined raw vector go through
`chroma_range`, channel 1 through `y_range`, channel 3 is the constant
`1.0`. -/
def expanded_channels (raw_channels : Fin 4 → ℚ) (bits : ℤ)
    (range : VkSamplerYcbcrRange) : Fin 4 → ℚ :=
  ![chroma_range (raw_channels 0) bits range,
    y_range (raw_channels 1) bits range,
    chroma_range (raw_channels 2) bits range,
    1]

/-- `convert_ycbcr` (lines 124-157): range expansion, early return for the
`YCBCR_IDENTITY` model, otherwise one `nir_fdot4` per matrix row with the
alpha channel forced to `1.0`.  `none` models reaching the matrix
function's `unreachable` default. -/
def convert_ycbcr (model : VkSamplerYcbcrModelConversion)
    (range : VkSamplerYcbcrRange) (raw_channels : Fin 4 → ℚ) (bits : ℤ) :
    Option (Fin 4 → ℚ) :=
  let ec := expanded_channels raw_channels bits range
  if model = .ycbcrIdentity then
    some ec
  else
    (ycbcr_model_to_rgb_matrix model).map fun m =>
      ![fdot4 ec (m 0), fdot4 ec (m 1), fdot4 ec (m 2), 1]

/-! ## Coordinate adjustment (lines 159-224)

`get_texture_size` emits one `txs` (size-query) instruction; here the
query's numeric result is a parameter `size : ℕ → ℚ` (the full-resolution
extents, axis-indexed), and the number of emitted `txs` instructions is
tracked explicitly. -/

/-- `implicit_downsampled_coord` (lines 182-195): the adjusted coordinate
`value + 1 / (div_scale * max_value)`. -/
def implicit_downsampled_coord (value max_value : ℚ) (div_scale : ℕ) : ℚ :=
  value + 1 / ((div_scale : ℚ) * max_value)

/-- Condition of line 209-210: axis `c` gets an adjusted coordinate iff
`c < 2` (`ARRAY_SIZE(divisors)`), the format's divisor on that axis
exceeds 1, and the chroma site on that axis is `COSITED_EVEN`. -/
def coordTrigger (desc : FormatInfo) (conv : YcbcrConversion) (c : ℕ) : Prop :=
  c < 2 ∧ 1 < divisorAt desc c ∧ chromaAt conv c = .cositedEven

instance (desc : FormatInfo) (conv : YcbcrConversion) (c : ℕ) :
    Decidable (coordTrigger desc conv c) := by
  unfold coordTrigger; infer_instance

/-- The `for (c ...)` loop of `implicit_downsampled_coords`
(lines 208-221).  The boolean argument mirrors the local
`nir_ssa_def *image_size`: `false` = still NULL, `true` = the size query
has been materialized.  Returns the adjusted coordinate list and the
final state of that local. -/
def downsampled_loop (desc : FormatInfo) (conv : YcbcrConversion)
    (size : ℕ → ℚ) (c : ℕ) : List ℚ → Bool → List ℚ × Bool
  | [], has_size => ([], has_size)
  | v :: rest, has_size =>
      if coordTrigger desc conv c then
        let out := downsampled_loop desc conv size (c + 1) rest true
        (implicit_downsampled_coord v (size c) (divisorAt desc c) :: out.1, out.2)
      else
        let out := downsampled_loop desc conv size (c + 1) rest has_size
        (v :: out.1, out.2)

/-- `implicit_downsampled_coords` (lines 197-224): starts with a fresh,
function-local `image_size = NULL`, walks the coordinate components, and
returns the new coordinate vector together with the number of size-query
(`txs`) instructions this call itself emitted (1 iff the lazy
`get_texture_size` fired). -/
def implicit_downsampled_coords (desc : FormatInfo) (conv : YcbcrConversion)
    (size : ℕ → ℚ) (old_coords : List ℚ) : List ℚ × ℕ :=
  let out := downsampled_loop desc conv size 0 old_coords false
  (out.1, if out.2 then 1 else 0)

/-- The coordinate source of the clone built by
`create_plane_tex_instr_implicit` (lines 236-249): for `plane != 0` the
coordinate is routed through `implicit_downsampled_coords` (the
`chroma_reconstruction` conditional is hard-wired `true` in the source);
for plane 0 every source is copied unchanged.  Also returns the number of
size-query instructions emitted for this clone. -/
def create_plane_tex_coords (desc : FormatInfo) (conv : YcbcrConversion)
    (size : ℕ → ℚ) (old_coords : List ℚ) (plane : ℕ) : List ℚ × ℕ :=
  if plane ≠ 0 then implicit_downsampled_coords desc conv size old_coords
  else (old_coords, 0)

/-- Total number of synthesized size-query instructions at one lowered
call site: the `for (p = 0; p < plane_count; ++p)` loop of
`try_lower_tex_ycbcr` (lines 402-404), summing each clone's emissions. -/
def site_txs_count (desc : FormatInfo) (conv : YcbcrConversion)
    (size : ℕ → ℚ) (old_coords : List ℚ) : ℕ :=
  ((List.range desc.plane_count).map fun p =>
    (create_plane_tex_coords desc conv size old_coords p).2).sum

/-! ## Channel combiner (lines 276-345) -/

/-- `struct swizzle_info`: per logical channel, which plane's result and
which component of it. -/
structure swizzle_info where
  plane : Fin 4 → Fin 3
  swizzle : Fin 4 → Fin 4
deriving DecidableEq

/-- `get_plane_swizzles` (lines 281-304): the fixed routing tables keyed
by plane count; `none` models the `unreachable` default. -/
def get_plane_swizzles (planes : ℕ) : Option swizzle_info :=
  match planes with
  | 3 => some ⟨![2, 0, 1, 0], ![0, 0, 0, 3]⟩
  | 2 => some ⟨![1, 0, 1, 0], ![1, 0, 0, 3]⟩
  | 1 => some ⟨![0, 0, 0, 0], ![0, 1, 2, 3]⟩
  | _ => none

/-- Modelled from the spec: `vk_swizzle_conv` / `vk_format_compose_swizzles`
live in `vk_format.h`, which is not under `src/`.  Per the spec, the
descriptor's component swizzle is composed against the identity ordering
(X, Y, Z, W): an `IDENTITY` entry at output position `i` selects channel
`i`, `R`/`G`/`B`/`A` select channels X/Y/Z/W, and `ZERO`/`ONE` select the
constants. -/
def vk_swizzle_conv (pos : Fin 4) (c : VkComponentSwizzle) : VkSwizzle :=
  match c with
  | .identity => ![VkSwizzle.x, VkSwizzle.y, VkSwizzle.z, VkSwizzle.w] pos
  | .zero => .zero
  | .one => .one
  | .r => .x
  | .g => .y
  | .b => .z
  | .a => .w

/-- Modelled from the spec: `vk_format_compose_swizzles(&mapping,
(const unsigned char[4]){0,1,2,3}, swizzles)` as called on line 317 —
the user mapping composed on top of the identity ordering. -/
def vk_format_compose_swizzles (mapping : VkComponentMapping) : Fin 4 → VkSwizzle :=
  fun pos => vk_swizzle_conv pos (![mapping.r, mapping.g, mapping.b, mapping.a] pos)

/-- The all-`IDENTITY` component mapping. -/
def identityMapping : VkComponentMapping :=
  ⟨.identity, .identity, .identity, .identity⟩

/-- `build_swizzled_components` (lines 307-345): per output position, a
composed swizzle of X..W reads
`plane_values[plane_swizzle.plane[channel]]` at component
`plane_swizzle.swizzle[channel]` (`channel = swizzles[i] - VK_SWIZZLE_X`),
`ZERO`/`ONE` read the constants `0.0`/`1.0`.  `none` models the
`unreachable` plane count. -/
def build_swizzled_components (planes : ℕ) (mapping : VkComponentMapping)
    (plane_values : Fin 3 → Fin 4 → ℚ) : Option (Fin 4 → ℚ) :=
  (get_plane_swizzles planes).map fun ps => fun i =>
    match vk_format_compose_swizzles mapping i with
    | .x => plane_values (ps.plane 0) (ps.swizzle 0)
    | .y => plane_values (ps.plane 1) (ps.swizzle 1)
    | .z => plane_values (ps.plane 2) (ps.swizzle 2)
    | .w => plane_values (ps.plane 3) (ps.swizzle 3)
    | .zero => 0
    | .one => 1

/-- The value computation of `try_lower_tex_ycbcr` lines 406-410: combine
the per-plane results, then, unless the model is `RGB_IDENTITY`, run
`convert_ycbcr` with `bits` = the plane-0 format's X-component bit depth. -/
def lower_result (desc : FormatInfo) (conv : YcbcrConversion)
    (plane_values : Fin 3 → Fin 4 → ℚ) : Option (Fin 4 → ℚ) :=
  (build_swizzled_components desc.plane_count conv.components plane_values).bind
    fun result =>
      if conv.ycbcr_model ≠ .rgbIdentity then
        convert_ycbcr conv.ycbcr_model conv.ycbcr_range result desc.plane0_bits
      else
        some result

/-! ## Value shapes (component count x bit size)

Modelled from the spec: the NIR builder helpers (`nir_imm_float`,
`nir_channel`, `nir_vec`, the float ALU builders) live in NIR core, which
is not under `src/`.  Their result shapes: `nir_imm_float` is one 32-bit
component; `nir_channel` extracts one scalar keeping the source's bit
size; `nir_vec(comps, n)` has `n` components at the bit size of
`comps[0]`; scalar float arithmetic keeps its first operand's bit size. -/

/-- Shape (component count, bit width) of an SSA value. -/
structure ValueShape where
  num_components : ℕ
  bit_size : ℕ
deriving DecidableEq, Repr

/-- Destination shape of each per-plane clone
(`create_plane_tex_instr_implicit` lines 268-270): the original
destination's component count and bit size, copied verbatim via
`nir_ssa_dest_init(..., old_tex->dest.ssa.num_components,
nir_dest_bit_size(old_tex->dest), NULL)`. -/
def create_plane_tex_dest_shape (orig : ValueShape) : ValueShape :=
  ⟨orig.num_components, orig.bit_size⟩

/-- Shape of `build_swizzled_components`' result: `nir_vec(values, 4)`,
whose bit size is that of `values[0]` — a `nir_channel` of a plane clone
(the clone's bit size) for a composed swizzle of X..W, or the 32-bit
`nir_imm_float` constants for ZERO/ONE. -/
def build_swizzled_components_shape (planes : ℕ) (mapping : VkComponentMapping)
    (plane_shape : ValueShape) : Option ValueShape :=
  (get_plane_swizzles planes).map fun _ =>
    { num_components := 4
      bit_size :=
        match vk_format_compose_swizzles mapping 0 with
        | .zero => 32
        | .one => 32
        | _ => plane_shape.bit_size }

/-- Shape of `convert_ycbcr`'s result: a `nir_vec4` whose first component
is arithmetic over channel 0 of the input vector, hence the input's bit
size; always 4 components. -/
def convert_ycbcr_shape (s : ValueShape) : ValueShape :=
  ⟨4, s.bit_size⟩

/-- Shape of the final replacement value of one lowered sample
(lines 402-410 at the shape level): every plane clone has the original
destination's shape; the combined vector's shape feeds `convert_ycbcr`
unless the model is `RGB_IDENTITY`. -/
def lower_result_shape (model : VkSamplerYcbcrModelConversion) (planes : ℕ)
    (mapping : VkComponentMapping) (orig : ValueShape) : Option ValueShape :=
  (build_swizzled_components_shape planes mapping
      (create_plane_tex_dest_shape orig)).map fun sw =>
    if model = .rgbIdentity then sw else convert_ycbcr_shape sw

/-! ## Binding resolution and the pass driver (lines 347-452) -/

/-- `nir_texop` values relevant to the pass: `tex`/`txb` stand for
sampling ops; `txs`, `query_levels` and `lod` are the shape queries the
pass leaves alone. -/
inductive NirTexOp
  | tex
  | txb
  | txs
  | query_levels
  | lod
deriving DecidableEq, Repr

/-- The texture-deref chain feeding `nir_tex_src_texture_deref`: a plain
variable, an array deref with a compile-time-constant index, or an array
deref with a dynamic index. -/
inductive DerefKind
  | var
  | arrConst (idx : ℕ)
  | arrDynamic
deriving DecidableEq, Repr

/-- A texture instruction, restricted to the fields
`try_lower_tex_ycbcr` inspects. -/
structure TexInstr where
  op : NirTexOp
  descriptor_set : ℕ
  binding : ℕ
  deref : DerefKind
deriving DecidableEq, Repr

/-- One binding of the pipeline layout: its declared array size and the
optional immutable-YCbCr-sampler table
(`radv_immutable_ycbcr_samplers`). -/
structure BindingInfo where
  array_size : ℕ
  ycbcr_samplers : Option (List YcbcrConversion)

/-- `radv_pipeline_layout`, as a map (set, binding) → binding info. -/
def PipelineLayout : Type := ℕ → ℕ → BindingInfo

/-- Default element for out-of-range sampler-table indexing (the C indexes
`ycbcr_samplers + array_index` unchecked; the clamp on line 382 keeps the
index in bounds whenever the table has `array_size` elements). -/
def undefined_conversion : YcbcrConversion :=
  ⟨none, .rgbIdentity, .ituFull, (.cositedEven, .cositedEven), identityMapping⟩

/-- Lines 376-383: the constant array index, clamped with
`MIN2(array_index, binding->array_size - 1)`; `none` for a dynamic
index. -/
def array_index_of : DerefKind → ℕ → Option ℕ
  | .var, _ => some 0
  | .arrConst idx, array_size => some (min idx (array_size - 1))
  | .arrDynamic, _ => none

/-- `try_lower_tex_ycbcr` (lines 347-416) as a decision: `true` iff the
instruction is lowered.  All the `return false` paths happen before any
builder emission, so a `false` result leaves the instruction untouched. -/
def try_lower_tex_ycbcr (layout : PipelineLayout) (tex : TexInstr) : Bool :=
  let binding := layout tex.descriptor_set tex.binding
  match binding.ycbcr_samplers with
  | none => false
  | some ycbcr_samplers =>
      if tex.op = .txs ∨ tex.op = .query_levels ∨ tex.op = .lod then
        false
      else
        match array_index_of tex.deref binding.array_size with
        | none => false
        | some array_index =>
            match (ycbcr_samplers.getD array_index undefined_conversion).format with
            | none => false
            | some _ => true

/-- An instruction of the shader stream: a texture instruction, the
replacement chain a lowered texture instruction gets rewritten into, or
any other (non-tex) instruction, which the pass skips. -/
inductive Instr
  | tex (t : TexInstr)
  | loweredTex (t : TexInstr)
  | other (tag : ℕ)
deriving DecidableEq, Repr

/-- Per-function analysis-cache validity flags
(`impl->valid_metadata`). -/
structure NirMetadata where
  block_index_valid : Bool
  dominance_valid : Bool
  other_valid : Bool
deriving DecidableEq, Repr

/-- Modelled from the spec: the effect of the
`nir_metadata_preserve(function->impl, nir_metadata_block_index |
nir_metadata_dominance)` call on lines 443-445 (NIR core, not under
`src/`).  Per the spec, when a function had instructions lowered its
structural analysis caches for block indexing and dominance are
invalidated and must be recomputed before being relied upon. -/
def nir_metadata_preserve (md : NirMetadata) : NirMetadata :=
  { md with block_index_valid := false, dominance_valid := false }

/-- `nir_function_impl`: basic blocks of instructions plus the analysis
metadata flags. -/
structure FunctionImpl where
  blocks : List (List Instr)
  metadata : NirMetadata
deriving DecidableEq, Repr

/-- `nir_function`: an optional implementation (line 425 skips functions
without one). -/
structure NirFunction where
  impl : Option FunctionImpl
deriving DecidableEq, Repr

/-- `nir_shader`: its functions. -/
structure NirShader where
  functions : List NirFunction
deriving DecidableEq, Repr

/-- One step of the instruction walk (lines 433-438): non-tex
instructions are skipped; a tex instruction is replaced by its lowering
iff `try_lower_tex_ycbcr` succeeds.  Returns the resulting instruction
and whether it was lowered. -/
def lower_instr (layout : PipelineLayout) : Instr → Instr × Bool
  | .tex t =>
      if try_lower_tex_ycbcr layout t then (.loweredTex t, true) else (.tex t, false)
  | .loweredTex t => (.loweredTex t, false)
  | .other tag => (.other tag, false)

/-- `function_progress` accumulated over the blocks of one function. -/
def impl_progress (layout : PipelineLayout) (impl : FunctionImpl) : Bool :=
  impl.blocks.any fun blk => blk.any fun i => (lower_instr layout i).2

/-- Per-function body of `radv_nir_lower_ycbcr_textures` (lines 424-448):
walk the blocks, and iff any instruction was lowered, apply the
metadata update of lines 442-446. -/
def lower_function (layout : PipelineLayout) (f : NirFunction) :
    NirFunction × Bool :=
  match f.impl with
  | none => (f, false)
  | some impl =>
      let fp := impl_progress layout impl
      (⟨some
          { blocks := impl.blocks.map (List.map fun i => (lower_instr layout i).1)
            metadata := if fp then nir_metadata_preserve impl.metadata
                        else impl.metadata }⟩,
       fp)

/-- `radv_nir_lower_ycbcr_textures` (lines 418-452): the rewritten shader
and the accumulated `progress` boolean. -/
def radv_nir_lower_ycbcr_textures (layout : PipelineLayout)
    (shader : NirShader) : NirShader × Bool :=
  (⟨shader.functions.map fun f => (lower_function layout f).1⟩,
   shader.functions.any fun f => (lower_function layout f).2)

/-! ## SSA use bookkeeping (lines 412-413)

Modelled from the spec: `nir_ssa_def_rewrite_uses` and
`nir_instr_remove` are NIR core, not under `src/`.  Per the spec, an SSA
value is produced by exactly one instruction and carries a use-list;
rewriting a destination redirects every existing use to the new value,
and deletion removes the old definition afterwards. -/

/-- One use: `user` instruction reading definition `used`. -/
structure UseRef where
  user : ℕ
  used : ℕ
deriving DecidableEq, Repr

/-- The SSA bookkeeping state: live definitions and the use list. -/
structure SsaState where
  defs : List ℕ
  uses : List UseRef
deriving DecidableEq, Repr

/-- Modelled from the spec: `nir_ssa_def_rewrite_uses(&tex->dest.ssa,
nir_src_for_ssa(result))` — every use of `old` is redirected to `new`. -/
def nir_ssa_def_rewrite_uses (old new : ℕ) (s : SsaState) : SsaState :=
  { s with uses := s.uses.map fun u =>
      if u.used = old then { u with used := new } else u }

/-- Modelled from the spec: `nir_instr_remove(&tex->instr)` — the
original instruction's definition is dropped from the live set. -/
def nir_instr_remove (d : ℕ) (s : SsaState) : SsaState :=
  { s with defs := s.defs.filter fun x => x ≠ d }

/-- The tail of `try_lower_tex_ycbcr` (lines 412-413): redirect all uses
of the original destination to the replacement, then delete the original
instruction — in that order. -/
def finish_lowering (dest result : ℕ) (s : SsaState) : SsaState :=
  nir_instr_remove dest (nir_ssa_def_rewrite_uses dest result s)

/-- Number of uses of definition `d`. -/
def countUses (d : ℕ) (s : SsaState) : ℕ :=
  (s.uses.filter fun u => u.used = d).length

/-- Every use references a live definition. -/
def SsaWellFormed (s : SsaState) : Prop :=
  ∀ u ∈ s.uses, u.used ∈ s.defs

instance (s : SsaState) : Decidable (SsaWellFormed s) := by
  unfold SsaWellFormed; infer_instance

/-! ## Concrete example descriptors (used to instantiate theorems) -/

/-- A 2-plane 4:2:2-style format: horizontal divisor 2, vertical 1,
8-bit plane 0. -/
def desc_2plane_422 : FormatInfo := ⟨2, 2, 1, 8⟩

/-- Descriptor over `desc_2plane_422` with a CositedEven horizontal
chroma site. -/
def conv_2plane_422 : YcbcrConversion :=
  ⟨some desc_2plane_422, .bt601, .ituNarrow, (.cositedEven, .midpoint),
   identityMapping⟩

/-- A 3-plane 4:2:0-style format: both divisors 2, 8-bit plane 0. -/
def desc_3plane_420 : FormatInfo := ⟨3, 2, 2, 8⟩

/-- Descriptor over `desc_3plane_420` with CositedEven sites on both
axes. -/
def conv_3plane_420 : YcbcrConversion :=
  ⟨some desc_3plane_420, .bt601, .ituNarrow, (.cositedEven, .cositedEven),
   identityMapping⟩

/-- Descriptor with the `RGB_IDENTITY` model. -/
def conv_rgb_identity : YcbcrConversion :=
  ⟨some desc_2plane_422, .rgbIdentity, .ituFull, (.cositedEven, .cositedEven),
   identityMapping⟩

/-- A pipeline layout whose every binding has the 3-plane YCbCr sampler
table. -/
def layout_3plane : PipelineLayout := fun _ _ => ⟨1, some [conv_3plane_420]⟩

/-- A pipeline layout with no immutable YCbCr samplers anywhere. -/
def layout_plain : PipelineLayout := fun _ _ => ⟨1, none⟩

/-- A sampling texture instruction at binding (0, 0) through a plain
variable deref. -/
def tex_sample_var : TexInstr := ⟨.tex, 0, 0, .var⟩

/-- A one-block function body holding just `tex_sample_var`, all analysis
caches valid. -/
def impl_one_tex : FunctionImpl := ⟨[[.tex tex_sample_var]], ⟨true, true, true⟩⟩

/-- The function wrapping `impl_one_tex`. -/
def fn_one_tex : NirFunction := ⟨some impl_one_tex⟩

/-- A one-function, one-block shader holding just `tex_sample_var`. -/
def shader_one_tex : NirShader := ⟨[fn_one_tex]⟩

/-- An SSA state with two live definitions and two uses of definition 1
(definition 2 is fresh). -/
def ssa_example : SsaState := ⟨[1, 2], [⟨5, 1⟩, ⟨6, 1⟩]⟩

/-- Distinct marker values per (plane, component) pair, for exercising the
channel-combiner routing tables. -/
def marker_planes : Fin 3 → Fin 4 → ℚ := fun p c => (p : ℚ) * 10 + (c : ℚ)

/-! ## Lemmas about the coordinate-adjustment loop -/

theorem downsampled_loop_snd_true (desc : FormatInfo) (conv : YcbcrConversion)
    (size : ℕ → ℚ) :
    ∀ (l : List ℚ) (c : ℕ), (downsampled_loop desc conv size c l true).2 = true := by
  intro l
  induction l with
  | nil => intro c; rfl
  | cons v rest ih =>
      intro c
      by_cases h : coordTrigger desc conv c <;>
        simp [downsampled_loop, h, ih (c + 1)]

theorem downsampled_loop_snd_false (desc : FormatInfo) (conv : YcbcrConversion)
    (size : ℕ → ℚ) :
    ∀ (l : List ℚ) (c : ℕ),
      ((downsampled_loop desc conv size c l false).2 = false ↔
        ∀ j < l.length, ¬ coordTrigger desc conv (c + j)) := by
  intro l
  induction l with
  | nil => intro c; simp [downsampled_loop]
  | cons v rest ih =>
      intro c
      by_cases h : coordTrigger desc conv c
      · refine iff_of_false ?_ ?_
        · simp [downsampled_loop, h,
            downsampled_loop_snd_true desc conv size rest (c + 1)]
        · intro hall
          exact hall 0 (by simp) (by simpa using h)
      · have hstep :
            (downsampled_loop desc conv size c (v :: rest) false).2 =
              (downsampled_loop desc conv size (c + 1) rest false).2 := by
          simp [downsampled_loop, h]
        rw [hstep, ih (c + 1)]
        constructor
        · intro hall j hj
          match j with
          | 0 => simpa using h
          | j + 1 =>
              have harith : c + (j + 1) = c + 1 + j := by omega
              rw [harith]
              exact hall j (by simpa using Nat.lt_of_succ_lt_succ hj)
        · intro hall j hj
          have harith : c + 1 + j = c + (j + 1) := by omega
          rw [harith]
          exact hall (j + 1) (by simpa using Nat.succ_lt_succ hj)

theorem downsampled_loop_fst_get (desc : FormatInfo) (conv : YcbcrConversion)
    (size : ℕ → ℚ) :
    ∀ (l : List ℚ) (c : ℕ) (b : Bool) (j : ℕ),
      (downsampled_loop desc conv size c l b).1[j]? =
        (l[j]?).map fun v =>
          if coordTrigger desc conv (c + j) then
            implicit_downsampled_coord v (size (c + j)) (divisorAt desc (c + j))
          else v := by
  intro l
  induction l with
  | nil => intro c b j; simp [downsampled_loop]
  | cons v rest ih =>
      intro c b j
      match j with
      | 0 =>
          by_cases h : coordTrigger desc conv c <;>
            simp [downsampled_loop, h]
      | j + 1 =>
          have harith : c + (j + 1) = c + 1 + j := by omega
          by_cases h : coordTrigger desc conv c
          · have hstep :
                (downsampled_loop desc conv size c (v :: rest) b).1 =
                  implicit_downsampled_coord v (size c) (divisorAt desc c) ::
                    (downsampled_loop desc conv size (c + 1) rest true).1 := by
              simp [downsampled_loop, h]
            rw [hstep, harith]
            simpa using ih (c + 1) true j
          · have hstep :
                (downsampled_loop desc conv size c (v :: rest) b).1 =
                  v :: (downsampled_loop desc conv size (c + 1) rest b).1 := by
              simp [downsampled_loop, h]
            rw [hstep, harith]
            simpa using ih (c + 1) b j

theorem downsampled_loop_fst_length (desc : FormatInfo) (conv : YcbcrConversion)
    (size : ℕ → ℚ) :
    ∀ (l : List ℚ) (c : ℕ) (b : Bool),
      (downsampled_loop desc conv size c l b).1.length = l.length := by
  intro l
  induction l with
  | nil => intro c b; rfl
  | cons v rest ih =>
      intro c b
      by_cases h : coordTrigger desc conv c <;>
        simp [downsampled_loop, h, ih (c + 1)]

theorem sum_range_if_pos_count (n k : ℕ) :
    ((List.range n).map fun p => if p ≠ 0 then k else 0).sum = (n - 1) * k := by
  induction n with
  | zero => simp
  | succ m ih =>
      rw [List.range_succ, List.map_append, List.sum_append, ih]
      cases m with
      | zero => simp
      | succ m2 =>
          simp [Nat.succ_sub_one, Nat.succ_mul]

theorem site_txs_count_eq (desc : FormatInfo) (conv : YcbcrConversion)
    (size : ℕ → ℚ) (coords : List ℚ) :
    site_txs_count desc conv size coords =
      (desc.plane_count - 1) * (implicit_downsampled_coords desc conv size coords).2 := by
  unfold site_txs_count
  have hmap : ∀ p ∈ List.range desc.plane_count,
      (create_plane_tex_coords desc conv size coords p).2 =
        (if p ≠ 0 then (implicit_downsampled_coords desc conv size coords).2 else 0) := by
    intro p _
    by_cases hp : p ≠ 0 <;> simp [create_plane_tex_coords, hp]
  rw [List.map_congr_left hmap, sum_range_if_pos_count]

/-- Claim C1, counterexample: at plane dimension 100 and divisor 2 with a
CositedEven horizontal site, the code's adjusted coordinate is
`0 + 1/(2*100) = 1/200`, not the claimed
`0 + 1/(2*2*100) = 1/400`. -/
theorem claim1_counterexample :
    (implicit_downsampled_coords desc_2plane_422 conv_2plane_422
        (fun _ => 100) [0, 0]).1 = [1/200, 0] ∧
    ((1 : ℚ)/200 ≠ 0 + 1/(2 * 2 * 100)) := by
  constructor
  · norm_num [implicit_downsampled_coords, downsampled_loop, coordTrigger,
      divisorAt, chromaAt, desc_2plane_422, conv_2plane_422,
      implicit_downsampled_coord]
  · norm_num

/-- Claim C1 (amended): for every cloned plane sample with plane index > 0
and each coordinate axis whose chroma site is CositedEven and whose format
subsampling divisor on that axis exceeds 1, the adjusted coordinate equals
the original plus `1 / (divisor * plane_dimension)`; every other component
is unchanged.  In particular, for a 2-plane format with horizontal divisor
2 and CositedEven horizontal site, plane 1's horizontal coordinate differs
from plane 0's by exactly `1/(2*width)`, the other component unchanged. -/
theorem claim1_coordinate_adjustment
    (desc : FormatInfo) (conv : YcbcrConversion) (size : ℕ → ℚ)
    (coords : List ℚ) (plane : ℕ) (hp : plane ≠ 0) :
    ((create_plane_tex_coords desc conv size coords plane).1.length =
      coords.length) ∧
    (∀ c : ℕ,
      (create_plane_tex_coords desc conv size coords plane).1[c]? =
        (coords[c]?).map fun v =>
          if coordTrigger desc conv c then
            v + 1 / ((divisorAt desc c : ℚ) * size c)
          else v) ∧
    (∀ x yv w h : ℚ,
      (create_plane_tex_coords desc_2plane_422 conv_2plane_422
          (fun i => if i = 0 then w else h) [x, yv] 1).1 =
        [x + 1/(2*w), yv] ∧
      (create_plane_tex_coords desc_2plane_422 conv_2plane_422
          (fun i => if i = 0 then w else h) [x, yv] 0).1 = [x, yv]) := by
  refine ⟨?_, ?_, ?_⟩
  · simp [create_plane_tex_coords, hp, implicit_downsampled_coords,
      downsampled_loop_fst_length]
  · intro c
    have hget := downsampled_loop_fst_get desc conv size coords 0 false c
    simp only [zero_add] at hget
    simp [create_plane_tex_coords, hp, implicit_downsampled_coords,
      implicit_downsampled_coord] at hget ⊢
    exact hget
  · intro x yv w h
    constructor
    · norm_num [create_plane_tex_coords, implicit_downsampled_coords,
        downsampled_loop, coordTrigger, divisorAt, chromaAt,
        desc_2plane_422, conv_2plane_422, implicit_downsampled_coord]
    · rfl

/-- Claim C1 witness: the amended theorem applied at the 2-plane example
descriptor, plane 1. -/
theorem claim1_coordinate_adjustment_witness :
    (create_plane_tex_coords desc_2plane_422 conv_2plane_422
        (fun _ => (100 : ℚ)) [0, 0] 1).1.length = ([0, 0] : List ℚ).length :=
  (claim1_coordinate_adjustment desc_2plane_422 conv_2plane_422
      (fun _ => (100 : ℚ)) [0, 0] 1 (by decide)).1

/-- Claim C2: per-channel range expansion matches the spec formulas —
Full-range luma is the identity, Narrow-range luma is
`(y*(2^bits - 1) - 16*2^(bits-8)) / (219*2^(bits-8))`, Full-range chroma
is `c - 2^(bits-1)/(2^bits - 1)`, Narrow-range chroma is
`(c*(2^bits - 1) - 128*2^(bits-8)) / (224*2^(bits-8))`; and the channels
are fed in the fixed order (chroma, luma, chroma) over positions
(0, 1, 2) of the combined vector, alpha becoming the constant 1. -/
theorem claim2_range_expansion (y cch : ℚ) (bits : ℤ)
    (range : VkSamplerYcbcrRange) (raw : Fin 4 → ℚ) :
    y_range y bits .ituFull = y ∧
    y_range y bits .ituNarrow =
      (y * ((2 : ℚ) ^ bits - 1) - 16 * (2 : ℚ) ^ (bits - 8)) /
        (219 * (2 : ℚ) ^ (bits - 8)) ∧
    chroma_range cch bits .ituFull =
      cch - (2 : ℚ) ^ (bits - 1) / ((2 : ℚ) ^ bits - 1) ∧
    chroma_range cch bits .ituNarrow =
      (cch * ((2 : ℚ) ^ bits - 1) - 128 * (2 : ℚ) ^ (bits - 8)) /
        (224 * (2 : ℚ) ^ (bits - 8)) ∧
    expanded_channels raw bits range =
      ![chroma_range (raw 0) bits range, y_range (raw 1) bits range,
        chroma_range (raw 2) bits range, 1] := by
  refine ⟨rfl, ?_, ?_, ?_, rfl⟩
  · show (y * ((2 : ℚ) ^ bits - 1) + (-16 * (2 : ℚ) ^ (bits - 8))) *
        (219 * (2 : ℚ) ^ (bits - 8))⁻¹ = _
    rw [div_eq_mul_inv]
    congr 1
    ring
  · show cch + (-(2 : ℚ) ^ (bits - 1) / ((2 : ℚ) ^ bits - 1)) = _
    rw [neg_div, ← sub_eq_add_neg]
  · show (cch * ((2 : ℚ) ^ bits - 1) + (-128 * (2 : ℚ) ^ (bits - 8))) *
        (224 * (2 : ℚ) ^ (bits - 8))⁻¹ = _
    rw [div_eq_mul_inv]
    congr 1
    ring

/-- Claim C2 witness: the formulas evaluated at bits = 8, the 16/255
narrow-luma black point expanding to 0. -/
theorem claim2_range_expansion_witness :
    y_range (16/255) 8 .ituFull = 16/255 :=
  (claim2_range_expansion (16/255) (16/255) 8 .ituFull ![0, 0, 0, 0]).1

/-- Claim C6, counterexample: for a 3-plane 4:2:0 descriptor with
CositedEven sites, one lowered call site synthesizes two size-query
instructions (one per chroma plane clone), not at most one. -/
theorem claim6_counterexample :
    site_txs_count desc_3plane_420 conv_3plane_420 (fun _ => 100) [0, 0] = 2 ∧
    ¬ (site_txs_count desc_3plane_420 conv_3plane_420 (fun _ => 100) [0, 0] ≤ 1) := by
  constructor
  · decide
  · decide

/-- Claim C6 (amended): the size query is created lazily, at most once per
cloned plane sample, and reused across both axes of that clone; a clone
synthesizes none exactly when no coordinate axis triggers adjustment; a
call site synthesizes `(plane_count - 1)` copies of the query when the
descriptor triggers adjustment (one per plane with index > 0) and none at
all otherwise. -/
theorem claim6_lazy_size_query (desc : FormatInfo) (conv : YcbcrConversion)
    (size : ℕ → ℚ) (coords : List ℚ) :
    (implicit_downsampled_coords desc conv size coords).2 ≤ 1 ∧
    ((implicit_downsampled_coords desc conv size coords).2 = 0 ↔
      ∀ c < coords.length, ¬ coordTrigger desc conv c) ∧
    site_txs_count desc conv size coords =
      (desc.plane_count - 1) *
        (implicit_downsampled_coords desc conv size coords).2 := by
  refine ⟨?_, ?_, site_txs_count_eq desc conv size coords⟩
  · unfold implicit_downsampled_coords
    cases hb : (downsampled_loop desc conv size 0 coords false).2 <;> simp [hb]
  · have hiff := downsampled_loop_snd_false desc conv size coords 0
    simp only [zero_add] at hiff
    rw [← hiff]
    unfold implicit_downsampled_coords
    cases hb : (downsampled_loop desc conv size 0 coords false).2 <;> simp [hb]

/-- Claim C6 witness: the amended theorem at the 3-plane example: each
clone emits at most one query. -/
theorem claim6_lazy_size_query_witness :
    (implicit_downsampled_coords desc_3plane_420 conv_3plane_420
        (fun _ => (100 : ℚ)) [0, 0]).2 ≤ 1 :=
  (claim6_lazy_size_query desc_3plane_420 conv_3plane_420
      (fun _ => (100 : ℚ)) [0, 0]).1

/-- Claim C3: the Channel Combiner routes through the fixed table keyed
only by plane count — under the identity component mapping the assembled
4-vector picks exactly the (plane, component) pairs of
`get_plane_swizzles` for plane counts 3, 2 and 1; the user swizzle is
composed against the identity ordering (X, Y, Z, W); and ZERO/ONE swizzle
entries produce the constants 0.0 and 1.0. -/
theorem claim3_channel_combiner (pv : Fin 3 → Fin 4 → ℚ) :
    (∀ i : Fin 4, vk_format_compose_swizzles identityMapping i =
        ![VkSwizzle.x, VkSwizzle.y, VkSwizzle.z, VkSwizzle.w] i) ∧
    build_swizzled_components 3 identityMapping pv =
      some ![pv 2 0, pv 0 0, pv 1 0, pv 0 3] ∧
    build_swizzled_components 2 identityMapping pv =
      some ![pv 1 1, pv 0 0, pv 1 0, pv 0 3] ∧
    build_swizzled_components 1 identityMapping pv =
      some ![pv 0 0, pv 0 1, pv 0 2, pv 0 3] ∧
    (∀ (planes : ℕ) (mapping : VkComponentMapping) (out : Fin 4 → ℚ)
        (i : Fin 4),
      build_swizzled_components planes mapping pv = some out →
      (vk_format_compose_swizzles mapping i = .zero → out i = 0) ∧
      (vk_format_compose_swizzles mapping i = .one → out i = 1)) := by
  refine ⟨?_, ?_, ?_, ?_, ?_⟩
  · intro i
    fin_cases i <;> rfl
  · unfold build_swizzled_components get_plane_swizzles
    simp only [Option.map_some']
    congr 1
    funext i
    fin_cases i <;> rfl
  · unfold build_swizzled_components get_plane_swizzles
    simp only [Option.map_some']
    congr 1
    funext i
    fin_cases i <;> rfl
  · unfold build_swizzled_components get_plane_swizzles
    simp only [Option.map_some']
    congr 1
    funext i
    fin_cases i <;> rfl
  · intro planes mapping out i hbuild
    unfold build_swizzled_components at hbuild
    cases hps : get_plane_swizzles planes with
    | none => rw [hps] at hbuild; simp at hbuild
    | some ps =>
        rw [hps] at hbuild
        simp only [Option.map_some', Option.some_inj] at hbuild
        constructor <;> intro hz <;> rw [← hbuild] <;> simp only [hz]

/-- Claim C3 witness: the 2-plane routing table evaluated on distinct
markers. -/
theorem claim3_channel_combiner_witness :
    build_swizzled_components 2 identityMapping marker_planes =
      some ![marker_planes 1 1, marker_planes 0 0, marker_planes 1 0,
             marker_planes 0 3] :=
  (claim3_channel_combiner marker_planes).2.2.1

/-- Claim C4: for BT.601, BT.709 and BT.2020 the converter selects the
fixed per-model 3x4 matrix, computes each RGB output as the dot product of
the 4-component expanded vector against the corresponding matrix row,
forces alpha to 1.0 in the final 4-vector, and on the expanded white input
(Cb=0, Y=1, Cr=0, 1) every matrix row dots to 1 (white maps to white). -/
theorem claim4_model_matrices (model : VkSamplerYcbcrModelConversion)
    (hmodel : model = .bt601 ∨ model = .bt709 ∨ model = .bt2020) :
    ∃ m, ycbcr_model_to_rgb_matrix model = some m ∧
      (∀ (raw : Fin 4 → ℚ) (bits : ℤ) (range : VkSamplerYcbcrRange),
        convert_ycbcr model range raw bits =
          some ![fdot4 (expanded_channels raw bits range) (m 0),
                 fdot4 (expanded_channels raw bits range) (m 1),
                 fdot4 (expanded_channels raw bits range) (m 2), 1]) ∧
      fdot4 ![0, 1, 0, 1] (m 0) = 1 ∧
      fdot4 ![0, 1, 0, 1] (m 1) = 1 ∧
      fdot4 ![0, 1, 0, 1] (m 2) = 1 := by
  rcases hmodel with rfl | rfl | rfl <;>
    refine ⟨_, rfl, fun raw bits range => rfl, ?_, ?_, ?_⟩ <;>
      norm_num [fdot4, Matrix.vecHead, Matrix.vecTail]

/-- Claim C4 witness: matrix lookup succeeds for BT.601. -/
theorem claim4_model_matrices_witness :
    (ycbcr_model_to_rgb_matrix .bt601).isSome = true := by
  obtain ⟨m, hm, -⟩ := claim4_model_matrices .bt601 (Or.inl rfl)
  rw [hm]
  rfl

/-- Claim C5: with the RGB-Identity model the Color Converter is skipped
entirely — the replacement value is the Channel Combiner's swizzled output
unchanged, with no range expansion and no matrix multiply; with the
Identity model `convert_ycbcr` stops after range expansion (no matrix is
applied). -/
theorem claim5_identity_passthrough (desc : FormatInfo)
    (conv : YcbcrConversion) (pv : Fin 3 → Fin 4 → ℚ)
    (range : VkSamplerYcbcrRange) (raw : Fin 4 → ℚ) (bits : ℤ)
    (hm : conv.ycbcr_model = .rgbIdentity) :
    lower_result desc conv pv =
      build_swizzled_components desc.plane_count conv.components pv ∧
    convert_ycbcr .ycbcrIdentity range raw bits =
      some (expanded_channels raw bits range) := by
  constructor
  · cases hb : build_swizzled_components desc.plane_count conv.components pv <;>
      simp [lower_result, hm, hb]
  · simp [convert_ycbcr]

/-- Claim C5 witness: the RGB-Identity descriptor's lowering result is
the combiner output on the marker planes. -/
theorem claim5_identity_passthrough_witness :
    lower_result desc_2plane_422 conv_rgb_identity marker_planes =
      build_swizzled_components desc_2plane_422.plane_count
        conv_rgb_identity.components marker_planes :=
  (claim5_identity_passthrough desc_2plane_422 conv_rgb_identity
      marker_planes .ituFull ![0, 0, 0, 0] 8 rfl).1

/-! ## Lemmas about `try_lower_tex_ycbcr` and the pass driver -/

theorem tl_false_no_samplers (layout : PipelineLayout) (t : TexInstr)
    (h : (layout t.descriptor_set t.binding).ycbcr_samplers = none) :
    try_lower_tex_ycbcr layout t = false := by
  simp [try_lower_tex_ycbcr, h]

theorem tl_false_query (layout : PipelineLayout) (t : TexInstr)
    (h : t.op = .txs ∨ t.op = .query_levels ∨ t.op = .lod) :
    try_lower_tex_ycbcr layout t = false := by
  cases hs : (layout t.descriptor_set t.binding).ycbcr_samplers with
  | none => simp [try_lower_tex_ycbcr, hs]
  | some samplers => rcases h with h | h | h <;> simp [try_lower_tex_ycbcr, hs, h]

theorem tl_false_dynamic (layout : PipelineLayout) (t : TexInstr)
    (h : t.deref = .arrDynamic) :
    try_lower_tex_ycbcr layout t = false := by
  cases hs : (layout t.descriptor_set t.binding).ycbcr_samplers with
  | none => simp [try_lower_tex_ycbcr, hs]
  | some samplers =>
      simp only [try_lower_tex_ycbcr, hs]
      split
      · rfl
      · simp [h, array_index_of]

theorem tl_false_undefined (layout : PipelineLayout) (t : TexInstr)
    (samplers : List YcbcrConversion) (idx : ℕ)
    (hs : (layout t.descriptor_set t.binding).ycbcr_samplers = some samplers)
    (hidx : array_index_of t.deref
      (layout t.descriptor_set t.binding).array_size = some idx)
    (hfmt : (samplers.getD idx undefined_conversion).format = none) :
    try_lower_tex_ycbcr layout t = false := by
  simp only [try_lower_tex_ycbcr, hs]
  split
  · rfl
  · rw [hidx]
    simp only [List.getD_eq_getElem?_getD] at hfmt
    simp [hfmt]

theorem lower_function_snd (layout : PipelineLayout) (f : NirFunction) :
    (lower_function layout f).2 = true ↔
      ∃ impl, f.impl = some impl ∧ impl_progress layout impl = true := by
  cases hf : f.impl with
  | none => simp [lower_function, hf]
  | some impl => simp [lower_function, hf]

theorem progress_iff (layout : PipelineLayout) (shader : NirShader) :
    (radv_nir_lower_ycbcr_textures layout shader).2 = true ↔
      ∃ f ∈ shader.functions, ∃ impl, f.impl = some impl ∧
        ∃ blk ∈ impl.blocks, ∃ i ∈ blk, (lower_instr layout i).2 = true := by
  simp [radv_nir_lower_ycbcr_textures, List.any_eq_true, lower_function_snd,
    impl_progress]

/-- Claim C7: a texture instruction is left completely untouched whenever
the binding has no YCbCr sampler table, the op is a shape query
(size/level-count/LOD), the array index is not a compile-time constant, or
the selected descriptor's format is the undefined sentinel; and the pass
entry point reports progress exactly when at least one instruction in the
shader was lowered. -/
theorem claim7_untouched_and_progress (layout : PipelineLayout)
    (t : TexInstr) (shader : NirShader) :
    (((layout t.descriptor_set t.binding).ycbcr_samplers = none) →
      lower_instr layout (.tex t) = (.tex t, false)) ∧
    ((t.op = .txs ∨ t.op = .query_levels ∨ t.op = .lod) →
      lower_instr layout (.tex t) = (.tex t, false)) ∧
    ((t.deref = .arrDynamic) →
      lower_instr layout (.tex t) = (.tex t, false)) ∧
    (∀ (samplers : List YcbcrConversion) (idx : ℕ),
      (layout t.descriptor_set t.binding).ycbcr_samplers = some samplers →
      array_index_of t.deref
        (layout t.descriptor_set t.binding).array_size = some idx →
      (samplers.getD idx undefined_conversion).format = none →
      lower_instr layout (.tex t) = (.tex t, false)) ∧
    ((radv_nir_lower_ycbcr_textures layout shader).2 = true ↔
      ∃ f ∈ shader.functions, ∃ impl, f.impl = some impl ∧
        ∃ blk ∈ impl.blocks, ∃ i ∈ blk, (lower_instr layout i).2 = true) := by
  refine ⟨?_, ?_, ?_, ?_, progress_iff layout shader⟩
  · intro h
    simp [lower_instr, tl_false_no_samplers layout t h]
  · intro h
    simp [lower_instr, tl_false_query layout t h]
  · intro h
    simp [lower_instr, tl_false_dynamic layout t h]
  · intro samplers idx hs hidx hfmt
    simp [lower_instr, tl_false_undefined layout t samplers idx hs hidx hfmt]

/-- Claim C7 witness: with no sampler table, the instruction is returned
unchanged with no progress. -/
theorem claim7_untouched_and_progress_witness :
    lower_instr layout_plain (.tex tex_sample_var) =
      (.tex tex_sample_var, false) :=
  (claim7_untouched_and_progress layout_plain tex_sample_var
      shader_one_tex).1 rfl

/-! ## Lemmas about SSA use counting -/

theorem count_rewrite_result (l : List UseRef) (dest result : ℕ)
    (hne : dest ≠ result) :
    ((l.map fun u => if u.used = dest then { u with used := result } else u).filter
        fun u => u.used = result).length =
      (l.filter fun u => u.used = dest).length +
        (l.filter fun u => u.used = result).length := by
  induction l with
  | nil => rfl
  | cons u l ih =>
      by_cases h : u.used = dest
      · rw [List.map_cons, if_pos h,
          List.filter_cons_of_pos (by simp),
          List.filter_cons_of_pos (by simp [h]),
          List.filter_cons_of_neg (by simp [h]; exact hne)]
        simp [ih]
        omega
      · by_cases h2 : u.used = result
        · simp [List.filter_cons, List.map_cons, h, h2, Ne.symm hne, ih]
          omega
        · simp [List.filter_cons, List.map_cons, h, h2, ih]

theorem count_rewrite_dest (l : List UseRef) (dest result : ℕ)
    (hne : dest ≠ result) :
    ((l.map fun u => if u.used = dest then { u with used := result } else u).filter
        fun u => u.used = dest).length = 0 := by
  induction l with
  | nil => rfl
  | cons u l ih =>
      by_cases h : u.used = dest
      · simp [List.filter_cons, List.map_cons, h, Ne.symm hne, ih]
      · simp [List.filter_cons, List.map_cons, h, ih]

/-- Claim C8: `try_lower_tex_ycbcr` redirects every use of the original
destination to the replacement value strictly before deleting the
original instruction (`finish_lowering` is rewrite-then-remove); given a
fresh replacement, the use count of the replacement afterwards equals the
use count of the destination before, the deleted destination retains no
uses, and well-formedness (no use referencing a dead definition) is
preserved at the intermediate and final states. -/
theorem claim8_use_conservation (dest result : ℕ) (s : SsaState)
    (hne : dest ≠ result) (hfresh : countUses result s = 0)
    (hlive : result ∈ s.defs) (hwf : SsaWellFormed s) :
    countUses result (finish_lowering dest result s) = countUses dest s ∧
    countUses dest (finish_lowering dest result s) = 0 ∧
    SsaWellFormed (nir_ssa_def_rewrite_uses dest result s) ∧
    SsaWellFormed (finish_lowering dest result s) := by
  refine ⟨?_, ?_, ?_, ?_⟩
  · have key : countUses result (finish_lowering dest result s) =
        countUses dest s + countUses result s :=
      count_rewrite_result s.uses dest result hne
    rw [key, hfresh, Nat.add_zero]
  · exact count_rewrite_dest s.uses dest result hne
  · intro u hu
    obtain ⟨u0, hu0, hfu⟩ := List.mem_map.mp hu
    by_cases h : u0.used = dest
    · rw [← hfu]; simp only [if_pos h]; exact hlive
    · rw [← hfu]; simp only [if_neg h]; exact hwf u0 hu0
  · intro u hu
    obtain ⟨u0, hu0, hfu⟩ := List.mem_map.mp hu
    simp only [finish_lowering, nir_instr_remove]
    rw [List.mem_filter]
    constructor
    · by_cases h : u0.used = dest
      · rw [← hfu]; simp only [if_pos h]; exact hlive
      · rw [← hfu]; simp only [if_neg h]; exact hwf u0 hu0
    · by_cases h : u0.used = dest
      · rw [← hfu]; simp [if_pos h, Ne.symm hne]
      · rw [← hfu]; simp only [if_neg h, decide_eq_true_eq]
        simpa using h

/-- Claim C8 witness: conservation on the two-use example state. -/
theorem claim8_use_conservation_witness :
    countUses 2 (finish_lowering 1 2 ssa_example) = countUses 1 ssa_example :=
  (claim8_use_conservation 1 2 ssa_example (by decide) (by decide)
      (by decide) (by decide)).1

/-- Claim C9: per function, if any instruction was lowered the metadata
update of lines 442-446 runs (modelled from the spec as invalidating the
block-index and dominance caches); if no instruction was lowered the
function — metadata included — is returned unchanged, so all its analysis
caches remain valid. -/
theorem claim9_metadata_invalidation (layout : PipelineLayout)
    (f : NirFunction) (impl : FunctionImpl) (hf : f.impl = some impl) :
    ((lower_function layout f).2 = true →
      ∃ impl2, (lower_function layout f).1.impl = some impl2 ∧
        impl2.metadata = nir_metadata_preserve impl.metadata ∧
        impl2.metadata.block_index_valid = false ∧
        impl2.metadata.dominance_valid = false) ∧
    ((lower_function layout f).2 = false →
      (lower_function layout f).1 = f) := by
  obtain ⟨fimpl⟩ := f
  cases hf
  constructor
  · intro htrue
    simp only [lower_function] at htrue ⊢
    refine ⟨_, rfl, ?_, ?_, ?_⟩ <;> simp [htrue, nir_metadata_preserve]
  · intro hfalse
    simp only [lower_function] at hfalse ⊢
    have hblocks : impl.blocks.map (List.map fun i => (lower_instr layout i).1) =
        impl.blocks := by
      have hall : ∀ blk ∈ impl.blocks, ∀ i ∈ blk,
          ¬ ((lower_instr layout i).2 = true) := by
        simpa [impl_progress, List.any_eq_false] using hfalse
      have hmapped : ∀ blk ∈ impl.blocks,
          List.map (fun i => (lower_instr layout i).1) blk = id blk := by
        intro blk hblk
        rw [id]
        have hpt : ∀ i ∈ blk, (fun i => (lower_instr layout i).1) i = id i := by
          intro i hi
          cases i with
          | tex t =>
              by_cases ht : try_lower_tex_ycbcr layout t
              · exact absurd (by simp [lower_instr, ht]) (hall blk hblk _ hi)
              · simp [lower_instr, ht]
          | loweredTex t => rfl
          | other n => rfl
        rw [List.map_congr_left hpt, List.map_id]
      rw [List.map_congr_left hmapped, List.map_id]
    rw [hfalse] at *
    simp [hblocks, hfalse]

/-- Claim C9 witness: a function whose single sample is lowered ends with
its block-index cache invalidated. -/
theorem claim9_metadata_invalidation_witness :
    ((lower_function layout_3plane fn_one_tex).1.impl.map
      fun impl2 => impl2.metadata.block_index_valid) = some false := by
  obtain ⟨impl2, h1, h2, h3, h4⟩ :=
    (claim9_metadata_invalidation layout_3plane fn_one_tex impl_one_tex
        rfl).1 (by decide)
  rw [h1, Option.map_some', h3]

/-- Claim C10, counterexample: with a 16-bit original destination, a
1-plane format, the identity mapping and the RGB-Identity model, the
final replacement value is 4 components of 16 bits — not 32-bit float —
so the bit width is not independent of the original destination's. -/
theorem claim10_counterexample :
    lower_result_shape .rgbIdentity 1 identityMapping ⟨4, 16⟩ =
      some ⟨4, 16⟩ ∧ (ValueShape.mk 4 16).bit_size ≠ 32 := by
  constructor
  · rfl
  · decide

/-- Claim C10 (amended): each per-plane clone copies the original
destination's component count and bit width verbatim; the final
replacement value always has exactly 4 components regardless of the
original's component count; its injected constants are 32-bit floats, and
whenever the original destination is 32 bits wide the replacement's
scalars are 32-bit. -/
theorem claim10_result_shape (orig : ValueShape)
    (model : VkSamplerYcbcrModelConversion) (planes : ℕ)
    (mapping : VkComponentMapping) (sh : ValueShape)
    (hsh : lower_result_shape model planes mapping orig = some sh) :
    create_plane_tex_dest_shape orig = orig ∧
    sh.num_components = 4 ∧
    (orig.bit_size = 32 → sh.bit_size = 32) := by
  refine ⟨rfl, ?_, ?_⟩
  · unfold lower_result_shape build_swizzled_components_shape at hsh
    cases hps : get_plane_swizzles planes with
    | none => rw [hps] at hsh; simp at hsh
    | some ps =>
        rw [hps] at hsh
        simp only [Option.map_some', Option.some_inj] at hsh
        by_cases hm : model = .rgbIdentity <;>
          simp [hm, convert_ycbcr_shape] at hsh <;> rw [← hsh]
  · intro h32
    unfold lower_result_shape build_swizzled_components_shape at hsh
    cases hps : get_plane_swizzles planes with
    | none => rw [hps] at hsh; simp at hsh
    | some ps =>
        rw [hps] at hsh
        simp only [Option.map_some', Option.some_inj] at hsh
        rw [← hsh]
        by_cases hm : model = .rgbIdentity <;>
          cases hsw : vk_format_compose_swizzles mapping 0 <;>
            simp [hm, hsw, convert_ycbcr_shape, create_plane_tex_dest_shape,
              h32]

/-- Claim C10 witness: a 32-bit 4-component original produces a 4-component
replacement. -/
theorem claim10_result_shape_witness :
    (ValueShape.mk 4 32).num_components = 4 :=
  (claim10_result_shape ⟨4, 32⟩ .bt601 2 identityMapping ⟨4, 32⟩
      (by rfl)).2.1

end RadvYcbcr
